import Mathlib

/-!
Verification of the pyscope scheduling and calibration entry points.

The definitions below shallowly embed the relevant parts of
`src/pyscope/telrun/schedtel.py`, `src/pyscope/telrun/sun_condition.py`
and `src/pyscope/reduction/ccd_calib.py`.  Python exceptions are made
explicit through `Except PyExc`; Python name resolution at a statement is
modelled by a list of names in scope at that statement, collected from the
module imports, the function parameters and the assignments that precede
the statement in the source.  The scheduling core itself
(`pyscope.telrun.scheduler`, `queue`, `schedule`, ...) is declared in
`src/pyscope/telrun/__init__.py` but its modules are not part of the
sources; that part is modelled from the specification (sections 4.6 and
4.7) and is clearly marked as such.
-/

/-- A Python exception, restricted to the kinds that the embedded code can
raise: `NameError` for a reference to an unbound name, `IndexError` for an
out-of-range sequence index, `TypeError` for an unsupported operand. -/
inductive PyExc
  | nameError (nm : String)
  | indexError
  | typeError (msg : String)
  deriving DecidableEq

deriving instance DecidableEq for Except

/-- Python name resolution: evaluating a bare name succeeds exactly when the
name is bound in the enclosing scope; otherwise the interpreter raises
`NameError`. -/
def evalName (scope : List String) (nm : String) : Except PyExc Unit :=
  if nm ∈ scope then Except.ok () else Except.error (PyExc.nameError nm)

/-! ## ccd_calib (src/pyscope/reduction/ccd_calib.py) -/

/-- What the filesystem holds at a path: a regular file, a directory with
the FITS files that `glob.glob` returns for it, or nothing. -/
inductive FsEntry
  | file
  | dir (fits : List String)
  | missing
  deriving DecidableEq

/-- An observable step of `ccd_calib_cli`: loading a master calibration
frame, or calibrating one science frame. -/
inductive CalEvent
  | loadFrame (f : String)
  | calibrate (f : String)
  deriving DecidableEq

/-- Lines 259-268 of ccd_calib.py: after `fnames = fnames[0]`, a path that
is a regular file becomes a one-element list, a directory is expanded by
`glob.glob` to its `.fts`/`.fits`/`.fit` files, and anything else is only
logged, leaving `fnames` the original string so that the subsequent
`for fname in fnames` iterates over its characters. -/
def expandFnames (fs : String → FsEntry) (f0 : String) : List String :=
  match fs f0 with
  | FsEntry.file => [f0]
  | FsEntry.dir fits => fits
  | FsEntry.missing => f0.data.map (fun c => String.mk [c])

/-- Embedding of `ccd_calib_cli` (ccd_calib.py lines 92-492).  Line 110
executes `fnames = fnames[0]` before any calibration frame is opened, so an
empty `fnames` tuple raises `IndexError` with no events; otherwise only the
first element survives, the master frames are loaded, the first element is
expanded by `expandFnames`, and each resulting file is calibrated.  The
result records the event trace and the list of calibrated files. -/
def ccd_calib (fs : String → FsEntry) (fnames : List String)
    (bias dark flat : Option String) :
    List CalEvent × Except PyExc (List String) :=
  match fnames with
  | [] => ([], Except.error PyExc.indexError)
  | f0 :: _ =>
    let loads := (bias.toList ++ dark.toList ++ flat.toList).map CalEvent.loadFrame
    let files := expandFnames fs f0
    (loads ++ files.map CalEvent.calibrate, Except.ok files)

/-! ## Bad-column correction (ccd_calib.py lines 467-472) -/

/-- A calibrated image, abstracted as its pixel grid. -/
abbrev Image := List (List Rat)

/-- Python `badcol - 1` where `badcol` is a one-character string: `str`
does not support subtraction of an `int`, so the interpreter raises
`TypeError` before any NumPy indexing happens. -/
def charSubInt (_c : Char) (_n : Int) : Except PyExc Int :=
  Except.error (PyExc.typeError "unsupported operand types for str and int")

/-- One iteration of the bad-column loop, ccd_calib.py lines 469-472: the
right-hand side `(cal_image[:, badcol - 1] + cal_image[:, badcol + 1]) / 2`
is evaluated first, and `badcol - 1` already raises because `badcol` is a
character of the option string, not an integer. -/
def fixBadCol (img : Image) (badcol : Char) : Except PyExc Image :=
  match charSubInt badcol 1 with
  | Except.error e => Except.error e
  | Except.ok _ => Except.ok img

/-- The loop `for badcol in bad_columns` iterates over the characters of
the comma-separated option string, comma separators included. -/
def badColLoop (img : Image) : List Char → Except PyExc Image
  | [] => Except.ok img
  | c :: cs =>
    match fixBadCol img c with
    | Except.error e => Except.error e
    | Except.ok img2 => badColLoop img2 cs

/-- ccd_calib.py lines 467-472: the bad-column fix runs only when
`len(bad_columns) > 0`, and then iterates over the characters of the
string. -/
def fixBadColumns (img : Image) (bad_columns : String) : Except PyExc Image :=
  if 0 < bad_columns.length then badColLoop img bad_columns.data
  else Except.ok img

/-! ## Global constraints (schedtel.py lines 362-369) -/

/-- The astroplan constraint objects that `schedtel_cli` builds, with the
parameters given at the construction site. -/
inductive Constraint
  | altitudeMin (minDeg : Rat)
  | atNight (maxSolarAltitude : Rat)
  | airmassMax (maxAirmass : Rat) (booleanConstraint : Bool)
  | moonSepMin (minDeg : Rat)
  deriving DecidableEq

/-- schedtel.py lines 364-369: the `global_constraints` list, in source
order: `AltitudeConstraint(min=elevation*u.deg)`,
`AtNightConstraint(max_solar_altitude=max_altitude*u.deg)`,
`AirmassConstraint(max=airmass, boolean_constraint=False)`,
`MoonSeparationConstraint(min=moon_separation*u.deg)`. -/
def global_constraints (elevation max_altitude airmass moon_separation : Rat) :
    List Constraint :=
  [Constraint.altitudeMin elevation,
   Constraint.atNight max_altitude,
   Constraint.airmassMax airmass false,
   Constraint.moonSepMin moon_separation]

/-! ## The scheduling core, modelled from the spec

`src/pyscope/telrun/__init__.py` declares `Scheduler`, `Queue`,
`Schedule`, `Prioritizer` and `Optimizer`, but their modules are not among
the sources.  The definitions in this section are therefore modelled from
the spec: the greedy, time-quantized loop of sections 4.6 and 4.7 of
spec.md, over an abstract ephemeris/transition service.  Time is measured
in integer ticks. -/

/-- Modelled from the spec: a schedulable Block (spec section 3) reduced to
what the loop consumes — an identifier, the total duration of its Field,
and its priority. -/
structure SBlock where
  ident : Nat
  dur : Nat
  priority : Rat
  deriving DecidableEq

/-- Modelled from the spec: the external ephemeris/transition-cost service
(spec section 6), a pure oracle.  `evalC` evaluates one global Condition
for a block at a time; `bfeas` evaluates the conjunction of a block's own
Conditions at a time; `score` is the Prioritizer ranking; `transCost` is
the transition-cost service. -/
structure EphService where
  evalC : Constraint → SBlock → Nat → Bool
  bfeas : SBlock → Nat → Bool
  score : SBlock → Nat → Rat
  transCost : SBlock → SBlock → Nat

/-- One entry of a Schedule: a scheduled Block, a synthesized transition,
or an explicit unallocated gap. -/
inductive EntryKind
  | scheduled (b : SBlock)
  | transition
  | unallocated
  deriving DecidableEq

/-- A Schedule entry: a half-open span `[start, stop)` of ticks with its
kind. -/
structure Entry where
  start : Nat
  stop : Nat
  kind : EntryKind
  deriving DecidableEq

/-- Transition cost from the previously placed block (none at the start of
the night) to the candidate. -/
def transitionCost (svc : EphService) (last : Option SBlock) (b : SBlock) : Nat :=
  match last with
  | none => 0
  | some lb => svc.transCost lb b

/-- Spec section 4.7 step 3: a candidate passes the site-wide global
Conditions at the cursor when every constraint in the list evaluates to
true there. -/
def passesGlobal (svc : EphService) (cs : List Constraint) (b : SBlock) (t : Nat) :
    Bool :=
  cs.all (fun c => svc.evalC c b t)

/-- Spec section 4.6: a candidate must be feasible for the entire span it
would occupy. -/
def spanOk (svc : EphService) (b : SBlock) (t0 dur : Nat) : Bool :=
  (List.range dur).all (fun k => svc.bfeas b (t0 + k))

/-- A candidate is admissible at cursor `t`: positive duration, it fits
before the window end including its transition cost, it passes the global
Conditions at the cursor, and its own Conditions hold over its span. -/
def candidateOk (svc : EphService) (cs : List Constraint) (last : Option SBlock)
    (tEnd t : Nat) (b : SBlock) : Bool :=
  decide (0 < b.dur) &&
  decide (t + transitionCost svc last b + b.dur ≤ tEnd) &&
  passesGlobal svc cs b t &&
  spanOk svc b (t + transitionCost svc last b) b.dur

/-- Modelled from the spec: the Optimizer's deterministic argmax (spec
sections 4.4 and 4.6) — the first candidate of maximal score, ties broken
by position in the ranked snapshot. -/
def pickBest (svc : EphService) (t : Nat) : List SBlock → Option SBlock
  | [] => none
  | x :: xs =>
    some (xs.foldl (fun acc y => if svc.score acc t < svc.score y t then y else acc) x)

/-- Modelled from the spec: the Running loop of spec section 4.7.  At each
cursor position the admissible candidates are ranked and the best one is
placed, preceded by a synthesized transition entry when the transition
cost is positive; when no candidate is admissible the cursor advances by
the resolution step (clamped to the window end).  `fuel` bounds the number
of iterations. -/
def schedLoop (svc : EphService) (cs : List Constraint) :
    List SBlock → Option SBlock → Nat → Nat → Nat → Nat → List Entry
  | _, _, _, _, _, 0 => []
  | blocks, last, t, tEnd, res, fuel + 1 =>
    if t < tEnd then
      match pickBest svc t (blocks.filter (candidateOk svc cs last tEnd t)) with
      | some b =>
        let c := transitionCost svc last b
        (if 0 < c then [⟨t, t + c, EntryKind.transition⟩] else []) ++
          ⟨t + c, t + c + b.dur, EntryKind.scheduled b⟩ ::
            schedLoop svc cs (blocks.erase b) (some b) (t + c + b.dur) tEnd res fuel
      | none =>
        schedLoop svc cs blocks last (min (t + res) tEnd) tEnd res fuel
    else []

/-- Spec sections 3 and 4.7 step 6: the gaps the loop left between placed
entries, and the remaining tail of the window, become explicit
UnallocatedBlocks, so that the Schedule is contiguous over the window. -/
def fillGaps (a b : Nat) : List Entry → List Entry
  | [] => if a < b then [⟨a, b, EntryKind.unallocated⟩] else []
  | e :: es =>
    (if a < e.start then [⟨a, e.start, EntryKind.unallocated⟩] else []) ++
      e :: fillGaps e.stop b es

/-- Modelled from the spec: one scheduling run over the window
`[ws, we)`. -/
def runScheduler (svc : EphService) (cs : List Constraint) (blocks : List SBlock)
    (ws we res : Nat) : List Entry :=
  fillGaps ws we (schedLoop svc cs blocks none ws we res (we - ws))

/-- `covers a b l`: the entries of `l` are consecutive non-empty spans that
partition `[a, b)` exactly — every entry starts where its predecessor
stopped, every entry has `start < stop`, and the last entry stops at
`b`. -/
def covers (a b : Nat) : List Entry → Prop
  | [] => a = b
  | e :: es => e.start = a ∧ e.start < e.stop ∧ covers e.stop b es

/-- The invariant the loop maintains: entries are ordered non-empty spans
lying inside `[a, b)`, possibly with gaps. -/
def chainFrom (a b : Nat) : List Entry → Prop
  | [] => a ≤ b
  | e :: es => a ≤ e.start ∧ e.start < e.stop ∧ chainFrom e.stop b es

/-- No two consecutive entries overlap. -/
def noOverlap : List Entry → Prop
  | [] => True
  | [_] => True
  | e1 :: e2 :: es => e1.stop ≤ e2.start ∧ noOverlap (e2 :: es)

/-! ## Schedule export (schedtel.py lines 434-435) -/

/-- The per-block configuration dictionary carried through the schedule;
`code` is the owning observer/project code (used as
`block["configuration"]["code"]` by the plotting code). -/
structure ObsConfig where
  code : String
  filt : String
  deriving DecidableEq

/-- A slot of the finished astroplan Schedule: an observed block with its
target and coordinates (or calibration tag), a transition, or unused
time. -/
inductive SlotKind
  | obs (target : String) (ra : Rat) (dec : Rat) (config : ObsConfig)
  | transitionSlot
  | unusedSlot
  deriving DecidableEq

/-- A Schedule slot: span plus kind. -/
structure Slot where
  start : Nat
  stop : Nat
  kind : SlotKind
  deriving DecidableEq

/-- A row of the exported schedule table. -/
structure TableRow where
  target : String
  startTime : Nat
  stopTime : Nat
  ra : Rat
  dec : Rat
  config : ObsConfig
  deriving DecidableEq

/-- Is this slot an observed block? -/
def SlotKind.isObs : SlotKind → Bool
  | SlotKind.obs _ _ _ _ => true
  | _ => false

/-- The row that an observed slot serializes to. -/
def rowOf (sl : Slot) : TableRow :=
  match sl.kind with
  | SlotKind.obs t r d c => ⟨t, sl.start, sl.stop, r, d, c⟩
  | _ => ⟨"", sl.start, sl.stop, 0, 0, ⟨"", ""⟩⟩

/-- schedtel.py line 435:
`schedule.to_table(show_transitions=False, show_unused=False)` — only
observed blocks become rows; transition slots and unused slots are
omitted from the exported table. -/
def to_table (s : List Slot) : List TableRow :=
  s.filterMap fun sl =>
    match sl.kind with
    | SlotKind.obs t r d c => some ⟨t, sl.start, sl.stop, r, d, c⟩
    | _ => none

/-- The serialized schedule table. -/
abbrev SchedTable := List TableRow

/-! ## Catalog ingestion (schedtel.py lines 245-300) -/

/-- An ObservingBlock as far as ingestion is concerned: an identity. -/
structure OB where
  ident : Nat
  deriving DecidableEq

/-- The outcome of reading one `.sch` file named in a `.cat` catalog:
the file may be missing, may fail to parse, or yields its blocks. -/
inductive SchParse
  | missingFile
  | badFile
  | good (obs : List OB)
  deriving DecidableEq

/-- schedtel.py lines 247-262: each file of a `.cat` catalog is read in
order; a missing file or an unparseable file is logged and skipped
(`continue`), and only the successfully parsed files contribute their
block lists. -/
def readCat (parse : String → SchParse) (files : List String) : List (List OB) :=
  files.filterMap fun f =>
    match parse f with
    | SchParse.good l => some l
    | _ => none

/-- Python `list.remove(b)`: delete the first element equal to `b`. -/
def removeFirst (b : OB) : List OB → List OB
  | [] => []
  | x :: xs => if x = b then xs else x :: removeFirst b xs

/-- schedtel.py lines 292-300, with CPython `for` semantics: the loop
holds an internal index into the (mutated) list; at each step it reads the
element at the index, validates it, removes it from the list on failure,
and increments the index either way — so a removal shifts the next element
into the current position and that element is never validated. -/
def validateLoopAux (valid : OB → Bool) : Nat → List OB → Nat → List OB
  | 0, l, _ => l
  | fuel + 1, l, i =>
    if h : i < l.length then
      let b := l.get ⟨i, h⟩
      if valid b then validateLoopAux valid fuel l (i + 1)
      else validateLoopAux valid fuel (removeFirst b l) (i + 1)
    else l

/-- The validation pass over one block group. -/
def validateLoop (valid : OB → Bool) (l : List OB) : List OB :=
  validateLoopAux valid l.length l 0

/-! ## schedtel_cli control flow (schedtel.py lines 184-552) -/

/-- The names bound at module level in schedtel.py: the imports of lines
1-26.  Note that neither `zoneinfo` nor `importlib` nor `numpy` is
imported. -/
def schedtelModuleScope : List String :=
  ["configparser", "datetime", "json", "logging", "os", "shlex", "astroplan",
   "click", "ccm", "mdates", "plt", "pytz", "smplotlib", "timezonefinder",
   "coord", "astrotime", "u", "mpc", "ticker", "utils", "Observatory", "sch",
   "validate_ob", "logger"]

/-- The parameters of `schedtel_cli` (lines 184-201). -/
def schedtelParams : List String :=
  ["catalog", "ignore_order", "date", "observatory", "max_altitude",
   "elevation", "airmass", "moon_separation", "scheduler", "gap_time",
   "resolution", "filename", "telrun", "plot", "quiet", "verbose"]

/-- Every local name assigned in `schedtel_cli` on some path before line
378 (a superset of any actual dynamic scope there). -/
def schedtelLocalsBefore378 : List String :=
  ["level", "blocks", "sch_files", "f", "block", "b", "obs_cfg", "obs_long",
   "obs_lat", "obs_height", "slew_rate", "instrument_reconfiguration_times",
   "instrument_name", "global_constraints", "transitioner"]

/-- The names in scope when line 378 (`tz = ... timezone_at(lng=lon.deg,
lat=lat.deg)`) executes. -/
def scopeAtLine378 : List String :=
  schedtelModuleScope ++ schedtelParams ++ schedtelLocalsBefore378

/-- The names in scope when line 406 (`time_resolution=time_resolution *
u.second` in the default-scheduler branch) would execute: everything from
line 378 plus the assignments of lines 378-396. -/
def scopeAtLine406 : List String :=
  scopeAtLine378 ++ ["tz", "t0", "t1", "schedule"]

/-- The names in scope inside the per-row `except` handlers of lines
460-493: everything from line 406 plus the assignments of lines 429-443
and the handler bindings. -/
def scopeInExceptHandler : List String :=
  scopeAtLine406 ++ ["schedule_handler", "i", "schedule_table", "row", "e1", "e2"]

/-- The observatory data extracted by the config-parsing branch of
schedtel.py lines 321-360. -/
structure ObsData where
  obs_long : Rat
  obs_lat : Rat
  obs_height : Rat
  slew_rate : Rat
  deriving DecidableEq

/-- Embedding of `schedtel_cli` (schedtel.py lines 184-552) at the level
the claims need.  `catalogParse` abstracts the catalog-ingestion phase
(lines 231-306; `.error` is the early `return` on a catalog that is not a
valid file or list), `obsParse` abstracts the observatory-config phase
(lines 308-360; `.error` is the early `return` on an invalid observatory
argument), and `restOfRun` abstracts everything from line 382 onwards that
would run if the names of lines 378-379 and 406 resolved.  Early returns
yield `.ok none`; the function yields `.ok (some table)` only if it
reaches the end.  Line 378 dereferences the names `lon` and `lat`,
line 379 dereferences `zoneinfo`, and the default-scheduler branch at line
406 dereferences `time_resolution`; each is looked up in the scope in
force at that line. -/
def schedtel_cli (catalogParse : Except Unit (List (List OB)))
    (obsParse : Except Unit ObsData)
    (elevation max_altitude airmass moon_separation : Rat)
    (restOfRun : List (List OB) → ObsData → List Constraint → SchedTable) :
    Except PyExc (Option SchedTable) :=
  match catalogParse with
  | Except.error _ => Except.ok none
  | Except.ok blocks =>
    match obsParse with
    | Except.error _ => Except.ok none
    | Except.ok obs =>
      let gcs := global_constraints elevation max_altitude airmass moon_separation
      match evalName scopeAtLine378 "lon" with
      | Except.error e => Except.error e
      | Except.ok _ =>
        match evalName scopeAtLine378 "lat" with
        | Except.error e => Except.error e
        | Except.ok _ =>
          match evalName scopeAtLine378 "zoneinfo" with
          | Except.error e => Except.error e
          | Except.ok _ =>
            match evalName scopeAtLine406 "time_resolution" with
            | Except.error e => Except.error e
            | Except.ok _ => Except.ok (some (restOfRun blocks obs gcs))

/-! ## Ephemeris update for non-sidereal targets (schedtel.py lines 437-493) -/

/-- A row of the schedule table as the ephemeris-update loop sees it:
the target name, whether its configured proper motion is nonzero (the
guard of lines 439-442), and its coordinates. -/
structure Row where
  nm : String
  nonSidereal : Bool
  ra : Rat
  dec : Rat
  deriving DecidableEq

/-- Which external lookup services the update loop actually calls for a
row. -/
inductive LookupCall
  | mpcCall
  | getBodyCall
  deriving DecidableEq

/-- Embedding of the per-row body of schedtel.py lines 438-493.  A
sidereal row is untouched.  For a non-sidereal row, `mpc.MPC.get_ephemeris`
is called; on success the row's coordinates and proper motions are
updated.  On failure, control enters `except Exception as e1`, whose inner
`try` first evaluates a log f-string that dereferences `line_number`; the
resulting `NameError` is caught by `except Exception as e2`, whose own log
f-string dereferences `line_number` again, and that second `NameError`
propagates out of the handler uncaught.  The fallback
`coord.get_body` lookup (lines 465-477, which itself dereferences the
unbound name `location` at line 471) is therefore never reached.  The
result pairs the trace of lookup calls with the outcome. -/
def updateRow (scope : List String) (mpcResult : Except Unit (Rat × Rat))
    (row : Row) : List LookupCall × Except PyExc Row :=
  if row.nonSidereal then
    match mpcResult with
    | Except.ok (r, d) => ([LookupCall.mpcCall], Except.ok { row with ra := r, dec := d })
    | Except.error _ =>
      match evalName scope "line_number" with
      | Except.error _ =>
        match evalName scope "line_number" with
        | Except.error exc => ([LookupCall.mpcCall], Except.error exc)
        | Except.ok _ => ([LookupCall.mpcCall], Except.ok row)
      | Except.ok _ =>
        match evalName scope "location" with
        | Except.error _ =>
          match evalName scope "line_number" with
          | Except.error exc =>
            ([LookupCall.mpcCall, LookupCall.getBodyCall], Except.error exc)
          | Except.ok _ => ([LookupCall.mpcCall, LookupCall.getBodyCall], Except.ok row)
        | Except.ok _ => ([LookupCall.mpcCall, LookupCall.getBodyCall], Except.ok row)
  else ([], Except.ok row)

/-! ## SunCondition (src/pyscope/telrun/sun_condition.py) -/

/-- The result type the spec assigns to Condition evaluation (spec section
4.1): a satisfied flag and a score. -/
structure ConditionResult where
  satisfied : Bool
  score : Rat
  deriving DecidableEq

/-- sun_condition.py lines 10-19: `SunCondition.__init__` has body `pass`,
so an instance carries no state. -/
structure SunCondition where
  deriving DecidableEq

/-- sun_condition.py lines 31-33: `SunCondition.__call__(time, location,
target)` has body `pass`, so for every input it returns Python `None`
(modelled as `Option.none`) and raises nothing. -/
def SunCondition.call (_c : SunCondition) (_time _location _target : Nat) :
    Except PyExc (Option ConditionResult) :=
  Except.ok none

/-! ## Concrete instances for closed evaluations -/

/-- An ephemeris service under which everything is observable, all scores
are equal, and transitions are free. -/
def constSvc : EphService :=
  ⟨fun _ _ _ => true, fun _ _ => true, fun _ _ => 0, fun _ _ => 0⟩

/-- A concrete block: two ticks long, priority 1. -/
def demoBlock : SBlock := ⟨0, 2, 1⟩

/-- Concrete validity oracle: blocks 0 and 1 fail `validate_ob`, every
other block passes. -/
def obValid : OB → Bool := fun o => decide (2 ≤ o.ident)

/-- Concrete parse oracle for a `.cat` catalog. -/
def parseEx : String → SchParse := fun f =>
  if f = "good.sch" then SchParse.good [⟨2⟩]
  else if f = "gone.sch" then SchParse.missingFile
  else if f = "bad.sch" then SchParse.badFile
  else if f = "more.sch" then SchParse.good [⟨3⟩]
  else SchParse.badFile

/-- A finished schedule in which the dead time between the two observed
blocks is a transition. -/
def slotsWithTransition : List Slot :=
  [⟨0, 10, SlotKind.obs "M31" 10 41 ⟨"ab", "V"⟩⟩,
   ⟨10, 20, SlotKind.transitionSlot⟩,
   ⟨20, 30, SlotKind.obs "M33" 23 30 ⟨"cd", "R"⟩⟩]

/-- The same observed blocks, but the dead time is an unallocated gap. -/
def slotsWithGap : List Slot :=
  [⟨0, 10, SlotKind.obs "M31" 10 41 ⟨"ab", "V"⟩⟩,
   ⟨10, 20, SlotKind.unusedSlot⟩,
   ⟨20, 30, SlotKind.obs "M33" 23 30 ⟨"cd", "R"⟩⟩]

/-- A one-slot schedule consisting of observed blocks only. -/
def demoObsSlots : List Slot := [⟨0, 5, SlotKind.obs "M1" 1 2 ⟨"x", "V"⟩⟩]

/-! ## Helper lemmas -/

/-- A fold that at each step keeps either its accumulator or the new
element ends inside the accumulator-plus-list. -/
theorem foldl_pick_mem (f : SBlock → SBlock → SBlock)
    (hf : ∀ a y, f a y = a ∨ f a y = y) :
    ∀ (xs : List SBlock) (a : SBlock), xs.foldl f a ∈ a :: xs := by
  intro xs
  induction xs with
  | nil => intro a; simp
  | cons y ys ih =>
    intro a
    have h := ih (f a y)
    rw [List.foldl_cons]
    rcases List.mem_cons.mp h with h2 | h2
    · rcases hf a y with h1 | h1
      · rw [h2, h1]; exact List.mem_cons_self _ _
      · rw [h2, h1]
        exact List.mem_cons_of_mem _ (List.mem_cons_self _ _)
    · exact List.mem_cons_of_mem _ (List.mem_cons_of_mem _ h2)

/-- The Optimizer's pick is one of the candidates. -/
theorem pickBest_mem (svc : EphService) (t : Nat) (l : List SBlock) (b : SBlock)
    (h : pickBest svc t l = some b) : b ∈ l := by
  cases l with
  | nil => simp [pickBest] at h
  | cons x xs =>
    simp only [pickBest, Option.some.injEq] at h
    have hmem := foldl_pick_mem
      (fun acc y => if svc.score acc t < svc.score y t then y else acc)
      (fun a y => by by_cases hc : svc.score a t < svc.score y t <;> simp [hc]) xs x
    rw [h] at hmem
    exact hmem

/-- Step equation of the Running loop when a candidate is chosen. -/
theorem schedLoop_succ_some (svc : EphService) (cs : List Constraint)
    (blocks : List SBlock) (last : Option SBlock) (t tEnd res n : Nat) (b : SBlock)
    (htt : t < tEnd)
    (hp : pickBest svc t (blocks.filter (candidateOk svc cs last tEnd t)) = some b) :
    schedLoop svc cs blocks last t tEnd res (n + 1) =
      (if 0 < transitionCost svc last b then
        [⟨t, t + transitionCost svc last b, EntryKind.transition⟩] else []) ++
        ⟨t + transitionCost svc last b, t + transitionCost svc last b + b.dur,
          EntryKind.scheduled b⟩ ::
          schedLoop svc cs (blocks.erase b) (some b)
            (t + transitionCost svc last b + b.dur) tEnd res n := by
  simp only [schedLoop, if_pos htt, hp]

/-- Step equation of the Running loop when no candidate is admissible. -/
theorem schedLoop_succ_none (svc : EphService) (cs : List Constraint)
    (blocks : List SBlock) (last : Option SBlock) (t tEnd res n : Nat)
    (htt : t < tEnd)
    (hp : pickBest svc t (blocks.filter (candidateOk svc cs last tEnd t)) = none) :
    schedLoop svc cs blocks last t tEnd res (n + 1) =
      schedLoop svc cs blocks last (min (t + res) tEnd) tEnd res n := by
  simp only [schedLoop, if_pos htt, hp]

/-- Step equation of the Running loop at the window end. -/
theorem schedLoop_succ_done (svc : EphService) (cs : List Constraint)
    (blocks : List SBlock) (last : Option SBlock) (t tEnd res n : Nat)
    (htt : ¬ t < tEnd) :
    schedLoop svc cs blocks last t tEnd res (n + 1) = [] := by
  simp only [schedLoop, if_neg htt]

/-- The entry-chain invariant is monotone in its lower bound. -/
theorem chainFrom_mono :
    ∀ (l : List Entry) (a a2 b : Nat), a ≤ a2 → chainFrom a2 b l → chainFrom a b l
  | [], _, _, _, h, h2 => le_trans h h2
  | _ :: _, _, _, _, h, h2 => ⟨le_trans h h2.1, h2.2.1, h2.2.2⟩

/-- The loop invariant: starting at any cursor inside the window, the
entries the Running loop emits are ordered non-empty spans inside the
window. -/
theorem schedLoop_chainFrom (svc : EphService) (cs : List Constraint) :
    ∀ (fuel : Nat) (blocks : List SBlock) (last : Option SBlock) (t tEnd res : Nat),
      t ≤ tEnd → chainFrom t tEnd (schedLoop svc cs blocks last t tEnd res fuel) := by
  intro fuel
  induction fuel with
  | zero => intro blocks last t tEnd res ht; exact ht
  | succ n ih =>
    intro blocks last t tEnd res ht
    by_cases htt : t < tEnd
    · cases hp : pickBest svc t (blocks.filter (candidateOk svc cs last tEnd t)) with
      | none =>
        rw [schedLoop_succ_none svc cs blocks last t tEnd res n htt hp]
        refine chainFrom_mono _ t _ tEnd ?_ (ih _ _ _ _ _ (min_le_right _ _))
        exact le_min (Nat.le_add_right _ _) ht
      | some b =>
        have hmem := pickBest_mem svc t _ b hp
        have hok := (List.mem_filter.mp hmem).2
        simp only [candidateOk, Bool.and_eq_true, decide_eq_true_eq] at hok
        obtain ⟨⟨⟨hdur, hfit⟩, _⟩, _⟩ := hok
        rw [schedLoop_succ_some svc cs blocks last t tEnd res n b htt hp]
        by_cases hcpos : 0 < transitionCost svc last b
        · rw [if_pos hcpos]
          exact ⟨le_refl t, by dsimp only; omega, le_refl _, by dsimp only; omega,
            ih _ _ _ _ _ (by dsimp only; omega)⟩
        · rw [if_neg hcpos]
          exact ⟨by dsimp only; omega, by dsimp only; omega,
            ih _ _ _ _ _ (by dsimp only; omega)⟩
    · rw [schedLoop_succ_done svc cs blocks last t tEnd res n htt]
      exact ht

/-- Filling the gaps of an ordered in-window entry list yields an exact
partition of the window. -/
theorem fillGaps_covers :
    ∀ (l : List Entry) (a b : Nat), chainFrom a b l → covers a b (fillGaps a b l) := by
  intro l
  induction l with
  | nil =>
    intro a b h
    simp only [fillGaps]
    by_cases hab : a < b
    · rw [if_pos hab]; exact ⟨rfl, hab, rfl⟩
    · rw [if_neg hab]; exact Nat.le_antisymm h (Nat.le_of_not_lt hab)
  | cons e es ih =>
    intro a b h
    obtain ⟨hae, hes, hrest⟩ := h
    simp only [fillGaps]
    by_cases hlt : a < e.start
    · rw [if_pos hlt]
      exact ⟨rfl, hlt, rfl, hes, ih _ _ hrest⟩
    · rw [if_neg hlt]
      exact ⟨Nat.le_antisymm (Nat.le_of_not_lt hlt) hae, hes, ih _ _ hrest⟩

/-- In an exact partition every entry is a non-empty span. -/
theorem covers_pos :
    ∀ (l : List Entry) (a b : Nat), covers a b l → ∀ e ∈ l, e.start < e.stop := by
  intro l
  induction l with
  | nil => intro a b _ e he; cases he
  | cons x xs ih =>
    intro a b h e he
    obtain ⟨_, hx, hrest⟩ := h
    rcases List.mem_cons.mp he with rfl | hm
    · exact hx
    · exact ih _ _ hrest e hm

/-- An exact partition has no overlapping consecutive entries. -/
theorem covers_noOverlap :
    ∀ (l : List Entry) (a b : Nat), covers a b l → noOverlap l := by
  intro l
  induction l with
  | nil => intro a b _; trivial
  | cons x xs ih =>
    intro a b h
    obtain ⟨_, _, hrest⟩ := h
    cases xs with
    | nil => trivial
    | cons y ys =>
      have hy := hrest.1
      exact ⟨le_of_eq hy.symm, ih _ _ hrest⟩

/-! ## Claim theorems (first group) -/

/-- C1: every Schedule produced by a scheduling run over `[ws, we)` is an
exact partition of the window: every entry has `start < stop`, consecutive
entries do not overlap, and the entries (the explicit unallocated gaps
included) cover the window exactly. -/
theorem C1_schedule_invariants (svc : EphService) (cs : List Constraint)
    (blocks : List SBlock) (ws we res : Nat) (hw : ws ≤ we) :
    covers ws we (runScheduler svc cs blocks ws we res) ∧
    (∀ e ∈ runScheduler svc cs blocks ws we res, e.start < e.stop) ∧
    noOverlap (runScheduler svc cs blocks ws we res) := by
  have hch := schedLoop_chainFrom svc cs (we - ws) blocks none ws we res hw
  have hcov := fillGaps_covers _ ws we hch
  exact ⟨hcov, covers_pos _ ws we hcov, covers_noOverlap _ ws we hcov⟩

/-- Witness for C1: a concrete run over the window `[0, 4)`. -/
theorem C1_schedule_invariants_witness :
    covers 0 4 (runScheduler constSvc (global_constraints 30 (-12) 3 30)
      [demoBlock] 0 4 1) :=
  (C1_schedule_invariants constSvc (global_constraints 30 (-12) 3 30)
    [demoBlock] 0 4 1 (by decide)).1

/-- C9: `ccd_calib` calibrates only the first element of `fnames`: an empty
`fnames` raises `IndexError` before any frame is loaded (empty event
trace), the result is unchanged under any replacement of the remaining
elements, and the calibrated files are exactly the expansion of
`fnames[0]` (the file itself, or the FITS files of the directory it
names). -/
theorem C9_first_fname_only (fs : String → FsEntry) (f0 : String)
    (rest rest2 : List String) (bias dark flat : Option String) :
    ccd_calib fs [] bias dark flat = ([], Except.error PyExc.indexError) ∧
    ccd_calib fs (f0 :: rest) bias dark flat =
      ccd_calib fs (f0 :: rest2) bias dark flat ∧
    (ccd_calib fs (f0 :: rest) bias dark flat).2 =
      Except.ok (expandFnames fs f0) := by
  refine ⟨rfl, rfl, rfl⟩

/-- C10: for every non-empty `bad_columns` string the correction loop runs
over the individual characters of the string and raises a `TypeError`
(from `badcol - 1` on a one-character string) instead of averaging any
neighbouring columns; the loop body is `badColLoop` over the character
list of the string. -/
theorem C10_badcols_raise (img : Image) (s : String) (h : 0 < s.length) :
    fixBadColumns img s =
      Except.error (PyExc.typeError "unsupported operand types for str and int") ∧
    fixBadColumns img s = badColLoop img s.data := by
  have hlen : 0 < s.data.length := h
  cases hd : s.data with
  | nil => rw [hd] at hlen; exact absurd hlen (by simp)
  | cons c cs =>
    have hpos : 0 < s.length := h
    constructor
    · simp only [fixBadColumns, if_pos hpos, hd, badColLoop, fixBadCol, charSubInt]
    · simp only [fixBadColumns, if_pos hpos, hd]

/-- Witness for C10 at a concrete bad-column option string. -/
theorem C10_badcols_raise_witness :
    fixBadColumns [] "12,34" =
      Except.error (PyExc.typeError "unsupported operand types for str and int") ∧
    fixBadColumns [] "12,34" = badColLoop [] "12,34".data :=
  C10_badcols_raise [] "12,34" (by decide)

/-- Gap filling only adds unallocated entries: anything else in the final
Schedule came from the Running loop. -/
theorem mem_fillGaps :
    ∀ (l : List Entry) (a b : Nat) (e : Entry),
      e ∈ fillGaps a b l → e ∈ l ∨ e.kind = EntryKind.unallocated := by
  intro l
  induction l with
  | nil =>
    intro a b e he
    simp only [fillGaps] at he
    by_cases hab : a < b
    · rw [if_pos hab] at he
      rcases List.mem_singleton.mp he with rfl
      right; rfl
    · rw [if_neg hab] at he; cases he
  | cons x xs ih =>
    intro a b e he
    simp only [fillGaps] at he
    rcases List.mem_append.mp he with h1 | h1
    · by_cases hlt : a < x.start
      · rw [if_pos hlt] at h1
        rcases List.mem_singleton.mp h1 with rfl
        right; rfl
      · rw [if_neg hlt] at h1; cases h1
    · rcases List.mem_cons.mp h1 with rfl | h2
      · left; exact List.mem_cons_self _ _
      · rcases ih _ _ _ h2 with h3 | h3
        · left; exact List.mem_cons_of_mem _ h3
        · right; exact h3

/-- Every Block the Running loop schedules passed all the global
Conditions at the cursor at which the Optimizer selected it — a time no
later than the block's start. -/
theorem schedLoop_scheduled_passes (svc : EphService) (cs : List Constraint) :
    ∀ (fuel : Nat) (blocks : List SBlock) (last : Option SBlock) (t tEnd res : Nat)
      (e : Entry) (b : SBlock),
      e ∈ schedLoop svc cs blocks last t tEnd res fuel →
      e.kind = EntryKind.scheduled b →
      ∃ tc, tc ≤ e.start ∧ passesGlobal svc cs b tc = true := by
  intro fuel
  induction fuel with
  | zero =>
    intro blocks last t tEnd res e b he _
    simp only [schedLoop] at he
    cases he
  | succ n ih =>
    intro blocks last t tEnd res e b he hk
    by_cases htt : t < tEnd
    · cases hp : pickBest svc t (blocks.filter (candidateOk svc cs last tEnd t)) with
      | none =>
        rw [schedLoop_succ_none svc cs blocks last t tEnd res n htt hp] at he
        exact ih _ _ _ _ _ _ _ he hk
      | some b2 =>
        have hmem := pickBest_mem svc t _ b2 hp
        have hok := (List.mem_filter.mp hmem).2
        simp only [candidateOk, Bool.and_eq_true, decide_eq_true_eq] at hok
        obtain ⟨⟨⟨hdur, hfit⟩, hglob⟩, hspan⟩ := hok
        rw [schedLoop_succ_some svc cs blocks last t tEnd res n b2 htt hp] at he
        rcases List.mem_append.mp he with h1 | h1
        · by_cases hcpos : 0 < transitionCost svc last b2
          · rw [if_pos hcpos] at h1
            rcases List.mem_singleton.mp h1 with rfl
            exact EntryKind.noConfusion hk
          · rw [if_neg hcpos] at h1; cases h1
        · rcases List.mem_cons.mp h1 with rfl | h2
          · have hb : b2 = b := by
              have hk2 : EntryKind.scheduled b2 = EntryKind.scheduled b := hk
              cases hk2
              rfl
            subst hb
            exact ⟨t, Nat.le_add_right _ _, hglob⟩
          · exact ih _ _ _ _ _ _ _ h2 hk
    · rw [schedLoop_succ_done svc cs blocks last t tEnd res n htt] at he
      cases he

/-- C2: the global Conditions built by `schedtel_cli` are exactly the four
site-wide ones — minimum elevation, Sun-altitude ceiling (night constraint
with `max_solar_altitude = max_altitude`), maximum airmass, minimum Moon
separation — and every Block a scheduling run places was filtered through
all of them at the cursor time (a time no later than the block's start) at
which the Optimizer selected it. -/
theorem C2_global_constraint_filter (svc : EphService)
    (elv malt am msep : Rat) (blocks : List SBlock) (ws we res : Nat) :
    global_constraints elv malt am msep =
      [Constraint.altitudeMin elv, Constraint.atNight malt,
       Constraint.airmassMax am false, Constraint.moonSepMin msep] ∧
    ∀ e ∈ runScheduler svc (global_constraints elv malt am msep) blocks ws we res,
      ∀ b, e.kind = EntryKind.scheduled b →
        ∃ tc, tc ≤ e.start ∧
          passesGlobal svc (global_constraints elv malt am msep) b tc = true := by
  refine ⟨rfl, ?_⟩
  intro e he b hk
  rcases mem_fillGaps _ ws we e he with h1 | h1
  · exact schedLoop_scheduled_passes svc _ _ _ _ _ _ _ e b h1 hk
  · rw [h1] at hk
    exact EntryKind.noConfusion hk

/-- Witness for C2: in the concrete run over `[0, 4)` the scheduled block
passed the four global constraints at its selection cursor. -/
theorem C2_global_constraint_filter_witness :
    passesGlobal constSvc (global_constraints 30 (-12) 3 30) demoBlock 0 = true := by
  obtain ⟨tc, htc, hp⟩ :=
    (C2_global_constraint_filter constSvc 30 (-12) 3 30 [demoBlock] 0 4 1).2
      ⟨0, 2, EntryKind.scheduled demoBlock⟩ (by decide) demoBlock rfl
  have htc0 : tc = 0 := Nat.le_zero.mp htc
  rw [htc0] at hp
  exact hp

/-- C3: scheduling is deterministic — two runs over the same Queue, the
same window and resolution, and ephemeris/transition-cost/score services
that answer identically on every query produce identical Schedules. -/
theorem C3_deterministic (svc1 svc2 : EphService) (cs : List Constraint)
    (blocks : List SBlock) (ws we res : Nat)
    (h1 : ∀ c b t, svc1.evalC c b t = svc2.evalC c b t)
    (h2 : ∀ b t, svc1.bfeas b t = svc2.bfeas b t)
    (h3 : ∀ b t, svc1.score b t = svc2.score b t)
    (h4 : ∀ a b, svc1.transCost a b = svc2.transCost a b) :
    runScheduler svc1 cs blocks ws we res = runScheduler svc2 cs blocks ws we res := by
  obtain ⟨e1, f1, s1, g1⟩ := svc1
  obtain ⟨e2, f2, s2, g2⟩ := svc2
  have he : e1 = e2 := funext fun c => funext fun b => funext fun t => h1 c b t
  have hf : f1 = f2 := funext fun b => funext fun t => h2 b t
  have hs : s1 = s2 := funext fun b => funext fun t => h3 b t
  have hg : g1 = g2 := funext fun a => funext fun b => h4 a b
  subst he hf hs hg
  rfl

/-- Witness for C3: two runs with the same service agree. -/
theorem C3_deterministic_witness :
    runScheduler constSvc (global_constraints 30 (-12) 3 30) [demoBlock] 0 4 1 =
      runScheduler constSvc (global_constraints 30 (-12) 3 30) [demoBlock] 0 4 1 :=
  C3_deterministic constSvc constSvc (global_constraints 30 (-12) 3 30) [demoBlock]
    0 4 1 (fun _ _ _ => rfl) (fun _ _ => rfl) (fun _ _ => rfl) (fun _ _ => rfl)

/-- C8: whenever catalog and observatory parsing succeed, `schedtel_cli`
raises `NameError` at the timezone computation before constructing the
schedule — `lon` and `lat` are unbound at line 378, `zoneinfo` is not
imported, and the default-scheduler branch at line 406 references the
unbound `time_resolution` although the parameter `resolution` is in
scope — so no schedule table is ever computed or written on any input. -/
theorem C8_nameerror_before_schedule (blocks : List (List OB)) (obs : ObsData)
    (elv malt am msep : Rat)
    (rest : List (List OB) → ObsData → List Constraint → SchedTable) :
    schedtel_cli (Except.ok blocks) (Except.ok obs) elv malt am msep rest =
      Except.error (PyExc.nameError "lon") ∧
    "lon" ∉ scopeAtLine378 ∧ "lat" ∉ scopeAtLine378 ∧
    "zoneinfo" ∉ scopeAtLine378 ∧ "time_resolution" ∉ scopeAtLine406 ∧
    "resolution" ∈ scopeAtLine406 ∧
    ∀ cp op tbl, schedtel_cli cp op elv malt am msep rest ≠ Except.ok (some tbl) := by
  have hlon : evalName scopeAtLine378 "lon" =
      Except.error (PyExc.nameError "lon") := by decide
  refine ⟨?_, by decide, by decide, by decide, by decide, by decide, ?_⟩
  · simp only [schedtel_cli, hlon]
  · intro cp op tbl
    cases cp with
    | error u => simp [schedtel_cli]
    | ok bs =>
      cases op with
      | error u => simp [schedtel_cli]
      | ok o => simp [schedtel_cli, hlon]

/-- Witness for C8: a concrete successful-parse input ends in the
`NameError`. -/
theorem C8_nameerror_before_schedule_witness :
    schedtel_cli (Except.ok []) (Except.ok ⟨0, 0, 0, 0⟩) 30 (-12) 3 30
      (fun _ _ _ => []) = Except.error (PyExc.nameError "lon") :=
  (C8_nameerror_before_schedule [] ⟨0, 0, 0, 0⟩ 30 (-12) 3 30 (fun _ _ _ => [])).1

/-- C4, counterexample: for a non-sidereal row whose MPC ephemeris lookup
fails, the update loop does not report infeasibility to the caller — it
raises `NameError` (`line_number` is unbound in both log f-strings of the
exception handlers) and the second `NameError` escapes the handler, so the
outcome is an exception, not a result. -/
theorem C4_lookup_failure_counterexample :
    updateRow scopeInExceptHandler (Except.error ()) ⟨"2017 UX5", true, 0, 0⟩ =
      ([LookupCall.mpcCall], Except.error (PyExc.nameError "line_number")) ∧
    (updateRow scopeInExceptHandler (Except.error ()) ⟨"2017 UX5", true, 0, 0⟩).2.toOption
      = none := by
  exact ⟨by decide, by decide⟩

/-- C4, amended: when the MPC ephemeris lookup for a non-sidereal row
fails, control enters the fallback handler that was meant to retry through
`coord.get_body`, but the handler raises `NameError` on the unbound
`line_number` before any alternative lookup executes, and the error
propagates to the caller; the trace therefore contains only the MPC call
and the failure is never turned into an infeasibility report. -/
theorem C4_mpc_failure_raises (scope : List String) (row : Row)
    (hrow : row.nonSidereal = true) (hs : "line_number" ∉ scope) :
    updateRow scope (Except.error ()) row =
      ([LookupCall.mpcCall], Except.error (PyExc.nameError "line_number")) := by
  have h : evalName scope "line_number" =
      Except.error (PyExc.nameError "line_number") := by
    simp [evalName, hs]
  simp [updateRow, hrow, h]

/-- Witness for C4 at the scope actually in force in the handler. -/
theorem C4_mpc_failure_raises_witness :
    updateRow scopeInExceptHandler (Except.error ()) ⟨"C2023 A3", true, 1, 2⟩ =
      ([LookupCall.mpcCall], Except.error (PyExc.nameError "line_number")) :=
  C4_mpc_failure_raises scopeInExceptHandler ⟨"C2023 A3", true, 1, 2⟩ rfl (by decide)

/-- C5: evaluation of the ingestion and validation code at the failing
input.  Missing and unparseable `.sch` files of a `.cat` catalog are
skipped individually without aborting the batch, but the validation loop
of lines 292-300 mutates the list while iterating over it: on the group
`[block 0, block 1, block 2]` with blocks 0 and 1 invalid and block 2
valid, removing block 0 shifts block 1 into the current position, the loop
never validates it, and the invalid block 1 survives into the scheduled
batch. -/
theorem C5_invalid_entry_survives :
    readCat parseEx ["good.sch", "gone.sch", "bad.sch", "more.sch"] =
      [[⟨2⟩], [⟨3⟩]] ∧
    validateLoop obValid [⟨0⟩, ⟨1⟩, ⟨2⟩] = [⟨1⟩, ⟨2⟩] ∧
    obValid ⟨1⟩ = false ∧ obValid ⟨2⟩ = true := by
  refine ⟨by decide, by decide, by decide, by decide⟩

/-- C6, counterexample: `SunCondition.__call__` at a concrete input
returns Python `None` — not a `ConditionResult` with `satisfied = False`
and a score. -/
theorem C6_sun_condition_counterexample :
    SunCondition.call ⟨⟩ 0 0 0 = Except.ok none ∧
    decide (SunCondition.call ⟨⟩ 0 0 0 =
      Except.ok (some { satisfied := false, score := 0 })) = false := by
  exact ⟨rfl, by decide⟩

/-- C6, amended: `SunCondition.__call__` is total — for every time,
location and target it raises nothing — but its body is the stub `pass`,
so it returns `None` rather than a `ConditionResult`; no satisfied flag
and no score are produced. -/
theorem C6_sun_condition_returns_none (c : SunCondition) (t l g : Nat) :
    SunCondition.call c t l g = Except.ok none :=
  rfl

/-- The exported table lists, in order, exactly the observed blocks of the
schedule, serialized by `rowOf`. -/
theorem to_table_eq (s : List Slot) :
    to_table s = (s.filter (fun sl => sl.kind.isObs)).map rowOf := by
  induction s with
  | nil => rfl
  | cons x xs ih =>
    cases hk : x.kind with
    | obs t r d c =>
      simp only [to_table, List.filterMap_cons, List.filter_cons, hk,
        SlotKind.isObs, List.map_cons, rowOf, if_pos]
      simpa [to_table] using ih
    | transitionSlot =>
      simp only [to_table, List.filterMap_cons, List.filter_cons, hk,
        SlotKind.isObs]
      simpa [to_table] using ih
    | unusedSlot =>
      simp only [to_table, List.filterMap_cons, List.filter_cons, hk,
        SlotKind.isObs]
      simpa [to_table] using ih

/-- On schedules made of observed blocks only, the exported table
determines the schedule exactly. -/
theorem to_table_inj :
    ∀ (s1 s2 : List Slot),
      (∀ sl ∈ s1, sl.kind.isObs = true) → (∀ sl ∈ s2, sl.kind.isObs = true) →
      to_table s1 = to_table s2 → s1 = s2 := by
  intro s1
  induction s1 with
  | nil =>
    intro s2 h1 h2 he
    cases s2 with
    | nil => rfl
    | cons y ys =>
      exfalso
      have hy := h2 y (List.mem_cons_self _ _)
      cases hky : y.kind with
      | obs t r d c => simp [to_table, hky] at he
      | transitionSlot => rw [hky] at hy; cases hy
      | unusedSlot => rw [hky] at hy; cases hy
  | cons x xs ih =>
    intro s2 h1 h2 he
    have hx := h1 x (List.mem_cons_self _ _)
    cases s2 with
    | nil =>
      exfalso
      cases hkx : x.kind with
      | obs t r d c => simp [to_table, hkx] at he
      | transitionSlot => rw [hkx] at hx; cases hx
      | unusedSlot => rw [hkx] at hx; cases hx
    | cons y ys =>
      have hy := h2 y (List.mem_cons_self _ _)
      cases hkx : x.kind with
      | transitionSlot => rw [hkx] at hx; cases hx
      | unusedSlot => rw [hkx] at hx; cases hx
      | obs tx rx dx cx =>
        cases hky : y.kind with
        | transitionSlot => rw [hky] at hy; cases hy
        | unusedSlot => rw [hky] at hy; cases hy
        | obs ty ry dy cy =>
          simp only [to_table, List.filterMap_cons, hkx, hky] at he
          rw [List.cons.injEq] at he
          obtain ⟨hh, ht⟩ := he
          rw [TableRow.mk.injEq] at hh
          obtain ⟨a1, a2, a3, a4, a5, a6⟩ := hh
          have hrest := ih ys (fun sl hm => h1 sl (List.mem_cons_of_mem _ hm))
            (fun sl hm => h2 sl (List.mem_cons_of_mem _ hm)) ht
          have hxy : x = y := by
            obtain ⟨xs1, xs2, xk⟩ := x
            obtain ⟨ys1, ys2, yk⟩ := y
            simp only at hkx hky a2 a3
            subst hkx hky a1 a2 a3 a4 a5 a6
            rfl
          rw [hxy, hrest]

/-- C7, counterexample: two different schedules — one whose dead time
`[10, 20)` is a transition, one where it is an unallocated gap — serialize
to the same table under
`to_table(show_transitions=False, show_unused=False)`, so the exported
form cannot reconstruct the allocation timeline including transitions and
unallocated gaps. -/
theorem C7_export_counterexample :
    decide (slotsWithTransition = slotsWithGap) = false ∧
    to_table slotsWithTransition = to_table slotsWithGap := by
  exact ⟨by decide, by decide⟩

/-- C7, amended: each exported row carries the target identity, start and
stop time, coordinates and configuration (which holds the owning
observer/project code) of one observed block, in allocation order, so the
observed blocks and their timing are reconstructible exactly; but
transitions and unallocated gaps are dropped by
`show_transitions=False, show_unused=False`, so the full timeline is
reconstructible only for schedules consisting of observed blocks alone,
on which the serialization is injective. -/
theorem C7_export_table (s s1 s2 : List Slot)
    (h1 : ∀ sl ∈ s1, sl.kind.isObs = true) (h2 : ∀ sl ∈ s2, sl.kind.isObs = true)
    (heq : to_table s1 = to_table s2) :
    to_table s = (s.filter (fun sl => sl.kind.isObs)).map rowOf ∧ s1 = s2 :=
  ⟨to_table_eq s, to_table_inj s1 s2 h1 h2 heq⟩

/-- Witness for C7 on concrete schedules. -/
theorem C7_export_table_witness :
    to_table slotsWithTransition =
      ((slotsWithTransition.filter (fun sl => sl.kind.isObs)).map rowOf) ∧
    demoObsSlots = demoObsSlots :=
  C7_export_table slotsWithTransition demoObsSlots demoObsSlots
    (by decide) (by decide) rfl
